import Mathlib

set_option autoImplicit false

namespace UrlShortener

/-!
Shallow embedding of the url-shortener service, translated from
src/src/server.ts.  The embedding covers the pieces the verified claims
are about: the input validation helpers, the short code generator, the
urls table of the sqlite database together with the four SQL statements
the handlers issue, and the three request handlers themselves.
-/

/-- Model of a JavaScript value as it can appear in the url field of the
request body of POST /api/shorten (server.ts line 150). -/
inductive JsValue where
  | undef : JsValue
  | null : JsValue
  | bool : Bool → JsValue
  | num : Int → JsValue
  | str : String → JsValue
deriving DecidableEq

/-- JavaScript truthiness, as tested by the guard on server.ts line 153. -/
def JsValue.truthy : JsValue → Bool
  | .undef => false
  | .null => false
  | .bool b => b
  | .num n => n != 0
  | .str s => s != ""

/-- ASCII lower casing of one character; model of the case folding done by
the i flag of the regular expressions in server.ts, restricted to ASCII. -/
def lowerChar (c : Char) : Char :=
  if 'A' ≤ c ∧ c ≤ 'Z' then Char.ofNat (c.toNat + 32) else c

def lowerChars (l : List Char) : List Char := l.map lowerChar

/-- Model of JavaScript String.prototype.trim (server.ts line 162),
restricted to the ASCII whitespace characters relevant here. -/
def isSpaceChar (c : Char) : Bool :=
  c == ' ' || c == '\t' || c == '\n' || c == '\r'

def jsTrim (s : String) : String :=
  ⟨((s.data.dropWhile isSpaceChar).reverse.dropWhile isSpaceChar).reverse⟩

/-- Does the needle occur at the very start of the hay? -/
def startsWith : List Char → List Char → Bool
  | _, [] => true
  | [], _ :: _ => false
  | a :: as, b :: bs => a == b && startsWith as bs

/-- Does the needle occur as a contiguous substring of the hay?  Model of
RegExp.prototype.test for the literal patterns of server.ts. -/
def hasSub (needle : List Char) : List Char → Bool
  | [] => needle.isEmpty
  | c :: rest => startsWith (c :: rest) needle || hasSub needle rest

def isAsciiAlpha (c : Char) : Bool :=
  ('a' ≤ c && c ≤ 'z') || ('A' ≤ c && c ≤ 'Z')

def isAsciiDigit (c : Char) : Bool := '0' ≤ c && c ≤ '9'

def isSchemeChar (c : Char) : Bool :=
  isAsciiAlpha c || isAsciiDigit c || c == '+' || c == '-' || c == '.'

/-- Result of parsing an absolute URL: the scheme (lower case, without the
trailing colon) and, for http and https URLs, the authority host. -/
structure UrlParts where
  scheme : String
  host : String
deriving DecidableEq

/-- Scan the scheme: characters up to the first colon. -/
def schemeSpan (acc : List Char) : List Char → Option (List Char × List Char)
  | [] => none
  | c :: rest =>
    if c == ':' then some (acc.reverse, rest)
    else if isSchemeChar c then schemeSpan (c :: acc) rest
    else none

def isHostChar (c : Char) : Bool := !(c == '/' || c == '?' || c == '#')

/-- Model of the WHATWG URL parser invoked as new URL in Node (server.ts
line 83), restricted to what the handlers observe: an absolute URL is a
scheme (an ASCII letter followed by scheme characters) and a colon; for
http and https the parser further requires the canonical double slash and
a non-empty host, which it extracts.  Scheme and host are lower cased, as
the real parser does. -/
def parseUrl (s : String) : Option UrlParts :=
  match s.data with
  | [] => none
  | c :: rest =>
    if isAsciiAlpha c then
      match schemeSpan [c] rest with
      | none => none
      | some (sch, rest2) =>
        let scheme : String := ⟨lowerChars sch⟩
        if scheme == "http" || scheme == "https" then
          match rest2 with
          | '/' :: '/' :: rest3 =>
            let host := rest3.takeWhile isHostChar
            if host.isEmpty then none
            else some ⟨scheme, ⟨lowerChars host⟩⟩
          | _ => none
        else some ⟨scheme, ""⟩
    else none

/-- server.ts lines 81 to 89: isValidUrl accepts exactly the strings that
parse as absolute URLs whose protocol is http or https. -/
def isValidUrl (url : String) : Bool :=
  match parseUrl url with
  | some u => u.scheme == "http" || u.scheme == "https"
  | none => false

/-- server.ts lines 93 to 103: the suspicious patterns, each a literal
case-insensitive substring test over the whole URL string. -/
def suspiciousNeedles : List String :=
  ["localhost", "127.0.0.1", "0.0.0.0", "::1",
   "file:", "ftp:", "javascript:", "data:", "vbscript:"]

/-- server.ts lines 92 to 106: isSuspiciousUrl. -/
def isSuspiciousUrl (url : String) : Bool :=
  suspiciousNeedles.any (fun p => hasSub p.data (lowerChars url.data))

/-- server.ts lines 109 to 111: isValidUrlLength. -/
def isValidUrlLength (url : String) : Bool :=
  decide (10 ≤ url.length ∧ url.length ≤ 2048)

/-- server.ts lines 115 to 124: the spam patterns. -/
def spamNeedles : List String :=
  ["bit.ly", "tinyurl", "short.link", "goo.gl", "t.co", "fb.me", "ow.ly", "is.gd"]

/-- server.ts lines 114 to 127: containsSpamPatterns. -/
def containsSpamPatterns (url : String) : Bool :=
  spamNeedles.any (fun p => hasSub p.data (lowerChars url.data))

/-- server.ts lines 130 to 132: generateShortCode takes the value produced
by uuidv4, removes the dashes and keeps the first 8 characters.  The uuid
value is the only input: the generator never consults the store. -/
def generateShortCode (uuid : String) : String :=
  ⟨(uuid.data.filter (fun c => !(c == '-'))).take 8⟩

def isHexLowerChar (c : Char) : Bool := isAsciiDigit c || ('a' ≤ c && c ≤ 'f')

/-- Shape of the strings returned by uuidv4 of the uuid package: five
groups of lower case hexadecimal digits of lengths 8, 4, 4, 4 and 12,
joined by dashes. -/
def IsUuidString (s : String) : Prop :=
  ∃ a b c d e : List Char,
    a.length = 8 ∧ b.length = 4 ∧ c.length = 4 ∧ d.length = 4 ∧ e.length = 12 ∧
    (∀ x ∈ a ++ b ++ c ++ d ++ e, isHexLowerChar x = true) ∧
    s.data = a ++ '-' :: (b ++ '-' :: (c ++ '-' :: (d ++ '-' :: e)))

/-- One row of the urls table (server.ts lines 53 to 78).  created_at is
an abstract timestamp. -/
structure Mapping where
  id : Nat
  short_code : String
  original_url : String
  created_at : Nat
  click_count : Nat
deriving DecidableEq

/-- The urls table: rows in insertion order, together with the next value
of the AUTOINCREMENT primary key. -/
structure Store where
  rows : List Mapping
  nextId : Nat
deriving DecidableEq

/-- SELECT * FROM urls WHERE original_url = ? under db.get (server.ts line
189): the first row whose original_url matches. -/
def findByOriginalUrl (st : Store) (url : String) : Option Mapping :=
  st.rows.find? (fun m => m.original_url == url)

/-- SELECT ... FROM urls WHERE short_code = ? under db.get (server.ts
lines 227 and 249): the first row whose short_code matches. -/
def findByShortCode (st : Store) (code : String) : Option Mapping :=
  st.rows.find? (fun m => m.short_code == code)

/-- INSERT INTO urls (short_code, original_url) VALUES (?, ?) (server.ts
line 208): fails when the UNIQUE constraint on short_code is violated,
otherwise appends a row with click_count 0, created_at set to the current
time and the next primary key. -/
def insertUrl (st : Store) (code url : String) (now : Nat) :
    Except Unit (Store × Mapping) :=
  if st.rows.any (fun m => m.short_code == code) then .error ()
  else
    let m : Mapping := ⟨st.nextId, code, url, now, 0⟩
    .ok ({ rows := st.rows ++ [m], nextId := st.nextId + 1 }, m)

/-- UPDATE urls SET click_count = click_count + 1 WHERE short_code = ?
(server.ts line 260): one atomic statement executed by sqlite. -/
def incrementClicks (st : Store) (code : String) : Store :=
  { st with rows := st.rows.map (fun m =>
      if m.short_code == code then { m with click_count := m.click_count + 1 } else m) }

/-- Outcome of POST /api/shorten: a 400 with the given error message, a
200 with shortUrl, originalUrl, shortCode and clickCount, or a 500. -/
inductive CreateResult where
  | badRequest : String → CreateResult
  | ok : String → String → String → Nat → CreateResult
  | serverError : CreateResult
deriving DecidableEq

/-- The POST /api/shorten handler (server.ts lines 149 to 222).  The gen
argument is the stream of codes that successive generateShortCode calls
would return, and the third component of the result counts how many times
the generator was invoked.  base stands for getBaseUrl(req), now for the
insert timestamp.  The store model is error free, so the only 500 branch
reachable here is the one of a failed insert. -/
def createHandler (url : JsValue) (st : Store) (gen : Nat → String) (now : Nat)
    (base : String) : CreateResult × Store × Nat :=
  if url.truthy = false then (.badRequest "URL is required", st, 0)
  else
    match url with
    | .str s =>
      let cleanUrl := jsTrim s
      if cleanUrl == "" then (.badRequest "URL cannot be empty", st, 0)
      else if !isValidUrl cleanUrl then
        (.badRequest "Invalid URL format. Only HTTP and HTTPS URLs are allowed.", st, 0)
      else if !isValidUrlLength cleanUrl then
        (.badRequest "URL length must be between 10 and 2048 characters.", st, 0)
      else if isSuspiciousUrl cleanUrl then
        (.badRequest "Suspicious URL detected. Local and file URLs are not allowed.", st, 0)
      else if containsSpamPatterns cleanUrl then
        (.badRequest "URL appears to be already shortened. Please provide the original URL.", st, 0)
      else
        match findByOriginalUrl st cleanUrl with
        | some row =>
          (.ok (base ++ "/" ++ row.short_code) row.original_url row.short_code row.click_count,
            st, 0)
        | none =>
          match insertUrl st (gen 0) cleanUrl now with
          | .ok (st2, _) => (.ok (base ++ "/" ++ gen 0) cleanUrl (gen 0) 0, st2, 1)
          | .error _ => (.serverError, st, 1)
    | _ => (.badRequest "URL must be a string", st, 0)

/-- Outcome of GET /api/stats/:shortCode: a 404, or a 200 with
originalUrl, shortCode, clickCount and createdAt. -/
inductive StatsResult where
  | notFound : StatsResult
  | ok : String → String → Nat → Nat → StatsResult
deriving DecidableEq

/-- The GET /api/stats/:shortCode handler (server.ts lines 224 to 244):
404 when the code is unknown, otherwise the fields of the row.  It never
changes the store. -/
def statsHandler (code : String) (st : Store) : StatsResult :=
  match findByShortCode st code with
  | none => .notFound
  | some row => .ok row.original_url row.short_code row.click_count row.created_at

/-- Outcome of GET /:shortCode: a plain text 404, or a 302 redirect whose
Location is the stored original URL (res.redirect defaults to 302). -/
inductive RedirectResult where
  | notFound : RedirectResult
  | redirect : String → RedirectResult
deriving DecidableEq

/-- The GET /:shortCode handler (server.ts lines 246 to 269): 404 when the
code is unknown; otherwise it issues the atomic click increment and
responds with a 302 whose Location is the original_url of the row that was
read before the increment. -/
def redirectHandler (code : String) (st : Store) : RedirectResult × Store :=
  match findByShortCode st code with
  | none => (.notFound, st)
  | some row => (.redirect row.original_url, incrementClicks st code)

/-- One client request, as dispatched to the three handlers. -/
inductive Op where
  | create : JsValue → (Nat → String) → Nat → String → Op
  | stats : String → Op
  | redirect : String → Op

def Op.isRedirect : Op → Bool
  | .redirect _ => true
  | .create _ _ _ _ => false
  | .stats _ => false

/-- The effect of one request on the store: create may insert, stats reads
only, redirect increments the clicked row. -/
def applyOp (st : Store) : Op → Store
  | .create url gen now base => (createHandler url st gen now base).2.1
  | .stats _ => st
  | .redirect code => (redirectHandler code st).2

def runOps (st : Store) (ops : List Op) : Store := ops.foldl applyOp st

/-- A primitive database statement of the redirect path.  sqlite executes
every statement atomically, so these are the units of interleaving under
concurrent requests. -/
inductive DbAction where
  | lookup : String → DbAction
  | incr : String → DbAction
deriving DecidableEq

def applyAction (st : Store) : DbAction → Store
  | .lookup _ => st
  | .incr code => incrementClicks st code

def runActions (st : Store) (acts : List DbAction) : Store :=
  acts.foldl applyAction st

def isIncrFor (code : String) : DbAction → Bool
  | .incr c => c == code
  | .lookup _ => false

def countIncr (code : String) (acts : List DbAction) : Nat :=
  acts.countP (isIncrFor code)

/-- The statement trace of one GET /:shortCode request for an existing
code: the row lookup (server.ts line 249) followed by the atomic increment
(server.ts line 260). -/
def redirectTrace (code : String) : List DbAction := [.lookup code, .incr code]

/-- acts is an interleaving of the statement traces qs of concurrently
executing requests: at every step one request whose trace is not yet
exhausted issues its next statement. -/
inductive MergeN : List (List DbAction) → List DbAction → Prop
  | done (qs : List (List DbAction)) (h : ∀ q ∈ qs, q = []) : MergeN qs []
  | step (qs : List (List DbAction)) (i : Nat) (a : DbAction) (rest : List DbAction)
      (out : List DbAction) (hq : qs[i]? = some (a :: rest))
      (hm : MergeN (qs.set i rest) out) : MergeN qs (a :: out)

/-- The URL-safe alphabet the spec attributes to the generator: letters,
digits, dash and underscore. -/
def isUrlSafeChar (c : Char) : Bool :=
  isAsciiAlpha c || isAsciiDigit c || c == '-' || c == '_'

/-- Modelled from the spec (claim C8): a draw over an approximately 62 to
the 8 space from the URL-safe alphabet requires every character of that
alphabet to be able to occur in a generated code.  This proposition
follows the words of the spec and is compared against the generator
translated from the source above. -/
def GeneratorCoversUrlSafeAlphabet : Prop :=
  ∀ c : Char, isUrlSafeChar c = true →
    ∃ u : String, IsUuidString u ∧ c ∈ (generateShortCode u).data

/-! ### Helper lemmas -/

theorem startsWith_iff : ∀ (hay needle : List Char),
    startsWith hay needle = true ↔ ∃ rest, hay = needle ++ rest
  | hay, [] => by simp [startsWith]
  | [], b :: bs => by simp [startsWith]
  | a :: as, b :: bs => by
    simp only [startsWith, Bool.and_eq_true, beq_iff_eq, startsWith_iff as bs,
      List.cons_append, List.cons.injEq]
    constructor
    · rintro ⟨rfl, rest, rfl⟩
      exact ⟨rest, rfl, rfl⟩
    · rintro ⟨rest, rfl, rfl⟩
      exact ⟨rfl, rest, rfl⟩

theorem hasSub_iff : ∀ (needle hay : List Char),
    hasSub needle hay = true ↔ ∃ pre post, hay = pre ++ needle ++ post
  | needle, [] => by
    cases needle with
    | nil => simp [hasSub]
    | cons n ns => simp [hasSub, eq_comm]
  | needle, c :: rest => by
    simp only [hasSub, Bool.or_eq_true, startsWith_iff, hasSub_iff needle rest]
    constructor
    · rintro (⟨r, hr⟩ | ⟨pre, post, hp⟩)
      · exact ⟨[], r, by simpa using hr⟩
      · exact ⟨c :: pre, post, by simp [hp]⟩
    · rintro ⟨pre, post, hp⟩
      cases pre with
      | nil => exact Or.inl ⟨post, by simpa using hp⟩
      | cons p ps =>
        right
        rw [List.cons_append, List.cons_append, List.cons.injEq] at hp
        exact ⟨ps, post, hp.2⟩

theorem findByShortCode_incrementClicks (st : Store) (c code : String) :
    findByShortCode (incrementClicks st c) code =
      (findByShortCode st code).map (fun m =>
        if m.short_code == c then { m with click_count := m.click_count + 1 } else m) := by
  unfold findByShortCode incrementClicks
  rw [List.find?_map]
  have hf : ((fun m : Mapping => m.short_code == code) ∘ (fun m : Mapping =>
      if m.short_code == c then { m with click_count := m.click_count + 1 } else m)) =
      fun m : Mapping => m.short_code == code := by
    funext m
    by_cases h : (m.short_code == c) = true <;> simp [Function.comp, h]
  rw [hf]

theorem insertUrl_fresh (st : Store) (code url : String) (now : Nat)
    (hfresh : st.rows.any (fun m => m.short_code == code) = false) :
    insertUrl st code url now =
      .ok (⟨st.rows ++ [⟨st.nextId, code, url, now, 0⟩], st.nextId + 1⟩,
        ⟨st.nextId, code, url, now, 0⟩) := by
  unfold insertUrl
  rw [if_neg]
  rw [hfresh]
  simp

theorem findByShortCode_after_insert (st : Store) (code url : String) (now : Nat)
    (hfresh : st.rows.any (fun m => m.short_code == code) = false) :
    findByShortCode ⟨st.rows ++ [⟨st.nextId, code, url, now, 0⟩], st.nextId + 1⟩ code =
      some ⟨st.nextId, code, url, now, 0⟩ := by
  unfold findByShortCode
  rw [List.find?_append]
  have h1 : st.rows.find? (fun m => m.short_code == code) = none := by
    rw [List.find?_eq_none]
    intro x hx hpx
    have h2 : st.rows.any (fun m => m.short_code == code) = true :=
      List.any_eq_true.mpr ⟨x, hx, hpx⟩
    rw [hfresh] at h2
    cases h2
  rw [h1]
  simp

theorem isValidUrl_ne_empty (u : String) (h : isValidUrl u = true) : u ≠ "" := by
  intro heq
  rw [heq] at h
  exact absurd h (by decide)

theorem createHandler_validated (s : String) (st : Store) (gen : Nat → String)
    (now : Nat) (base : String)
    (hv : isValidUrl (jsTrim s) = true)
    (hl : isValidUrlLength (jsTrim s) = true)
    (hs : isSuspiciousUrl (jsTrim s) = false)
    (hsp : containsSpamPatterns (jsTrim s) = false) :
    createHandler (.str s) st gen now base =
      match findByOriginalUrl st (jsTrim s) with
      | some row =>
        (.ok (base ++ "/" ++ row.short_code) row.original_url row.short_code row.click_count,
          st, 0)
      | none =>
        match insertUrl st (gen 0) (jsTrim s) now with
        | .ok (st2, _) => (.ok (base ++ "/" ++ gen 0) (jsTrim s) (gen 0) 0, st2, 1)
        | .error _ => (.serverError, st, 1) := by
  have hne : jsTrim s ≠ "" := isValidUrl_ne_empty _ hv
  have hsne : s ≠ "" := by
    intro h
    rw [h] at hne
    exact hne rfl
  simp [createHandler, JsValue.truthy, hne, hsne, hv, hl, hs, hsp]

theorem createHandler_no_badRequest (s : String) (st : Store) (gen : Nat → String)
    (now : Nat) (base : String)
    (hv : isValidUrl (jsTrim s) = true)
    (hl : isValidUrlLength (jsTrim s) = true)
    (hs : isSuspiciousUrl (jsTrim s) = false)
    (hsp : containsSpamPatterns (jsTrim s) = false)
    (msg : String) (stx : Store) (k : Nat) :
    createHandler (.str s) st gen now base ≠ (.badRequest msg, stx, k) := by
  rw [createHandler_validated s st gen now base hv hl hs hsp]
  cases hfind : findByOriginalUrl st (jsTrim s) with
  | some row => simp
  | none =>
    cases hins : insertUrl st (gen 0) (jsTrim s) now with
    | ok v =>
      obtain ⟨st2, m⟩ := v
      simp
    | error e => simp

/-! ### Claim theorems -/

/-- Claim C1: a Create request whose validated URL already has a mapping
in the store responds 200 with the existing shortCode of that mapping and
its current click count, the store is left unchanged and the code
generator is never invoked (the invocation counter of the result is 0). -/
theorem claimC1_dedup_returns_existing (s : String) (st : Store) (gen : Nat → String)
    (now : Nat) (base : String) (row : Mapping)
    (hv : isValidUrl (jsTrim s) = true)
    (hl : isValidUrlLength (jsTrim s) = true)
    (hs : isSuspiciousUrl (jsTrim s) = false)
    (hsp : containsSpamPatterns (jsTrim s) = false)
    (hrow : findByOriginalUrl st (jsTrim s) = some row) :
    createHandler (.str s) st gen now base =
      (.ok (base ++ "/" ++ row.short_code) row.original_url row.short_code row.click_count,
        st, 0) := by
  rw [createHandler_validated s st gen now base hv hl hs hsp, hrow]

/-- Witness for claim C1 at a concrete request and store: the stored
mapping already counts 7 clicks and the response reports exactly 7. -/
theorem claimC1_witness :
    createHandler (.str "https://example.com/page")
        ⟨[⟨1, "abc12345", "https://example.com/page", 3, 7⟩], 2⟩
        (fun _ => "zzzzzzzz") 9 "https://sho.rt" =
      (.ok ("https://sho.rt" ++ "/" ++ "abc12345") "https://example.com/page" "abc12345" 7,
        ⟨[⟨1, "abc12345", "https://example.com/page", 3, 7⟩], 2⟩, 0) :=
  claimC1_dedup_returns_existing "https://example.com/page"
    ⟨[⟨1, "abc12345", "https://example.com/page", 3, 7⟩], 2⟩ (fun _ => "zzzzzzzz") 9
    "https://sho.rt" ⟨1, "abc12345", "https://example.com/page", 3, 7⟩
    (by decide) (by decide) (by decide) (by decide) (by decide)

/-- Claim C2 (amended): when the insert of the freshly generated code
fails on the short_code uniqueness constraint, the handler responds 500
immediately: the generator was invoked exactly once, no retry happens and
the store is left unchanged. -/
theorem claimC2_no_retry_on_duplicate (s : String) (st : Store) (gen : Nat → String)
    (now : Nat) (base : String)
    (hv : isValidUrl (jsTrim s) = true)
    (hl : isValidUrlLength (jsTrim s) = true)
    (hs : isSuspiciousUrl (jsTrim s) = false)
    (hsp : containsSpamPatterns (jsTrim s) = false)
    (hnew : findByOriginalUrl st (jsTrim s) = none)
    (hdup : st.rows.any (fun m => m.short_code == gen 0) = true) :
    createHandler (.str s) st gen now base = (.serverError, st, 1) := by
  rw [createHandler_validated s st gen now base hv hl hs hsp, hnew]
  unfold insertUrl
  rw [if_pos hdup]

/-- Counterexample to claim C2 as stated: the store already holds the
first code the generator returns, a distinct fresh code is next in the
generator stream, yet the handler answers 500 with the generator invoked
exactly once, so no retry is ever attempted. -/
theorem claimC2_counterexample :
    createHandler (.str "https://example.com/pagetwo")
        ⟨[⟨1, "aaaaaaaa", "https://other.example/x", 0, 0⟩], 2⟩
        (fun n => if n = 0 then "aaaaaaaa" else "bbbbbbbb") 0 "b" =
      (.serverError, ⟨[⟨1, "aaaaaaaa", "https://other.example/x", 0, 0⟩], 2⟩, 1) ∧
    ([⟨1, "aaaaaaaa", "https://other.example/x", 0, 0⟩] : List Mapping).any
        (fun m => m.short_code == "aaaaaaaa") = true ∧
    ([⟨1, "aaaaaaaa", "https://other.example/x", 0, 0⟩] : List Mapping).any
        (fun m => m.short_code == "bbbbbbbb") = false :=
  ⟨by decide, by decide, by decide⟩

/-- Witness for the amended claim C2 at a concrete request and store. -/
theorem claimC2_witness :
    createHandler (.str "https://example.com/pagethree")
        ⟨[⟨1, "cccccccc", "https://other.example/y", 0, 0⟩], 2⟩
        (fun _ => "cccccccc") 0 "b" =
      (.serverError, ⟨[⟨1, "cccccccc", "https://other.example/y", 0, 0⟩], 2⟩, 1) :=
  claimC2_no_retry_on_duplicate "https://example.com/pagethree"
    ⟨[⟨1, "cccccccc", "https://other.example/y", 0, 0⟩], 2⟩ (fun _ => "cccccccc") 0 "b"
    (by decide) (by decide) (by decide) (by decide) (by decide) (by decide)

/-- Claim C7 (amended): the falsy check of the handler runs first, so every
falsy url value (absent, null, empty string, 0, false) yields the message
URL is required; a truthy value that is not a string yields URL must be a
string; and a non-empty string that trims to the empty string yields URL
cannot be empty.  No validation runs before these checks and the store is
untouched. -/
theorem claimC7_input_gate (st : Store) (gen : Nat → String) (now : Nat) (base : String) :
    (∀ v : JsValue, v.truthy = false →
      createHandler v st gen now base = (.badRequest "URL is required", st, 0)) ∧
    (∀ n : Int, n ≠ 0 →
      createHandler (.num n) st gen now base = (.badRequest "URL must be a string", st, 0)) ∧
    (createHandler (.bool true) st gen now base =
      (.badRequest "URL must be a string", st, 0)) ∧
    (∀ s : String, s ≠ "" → jsTrim s = "" →
      createHandler (.str s) st gen now base = (.badRequest "URL cannot be empty", st, 0)) := by
  refine ⟨?_, ?_, ?_, ?_⟩
  · intro v hv
    unfold createHandler
    rw [if_pos hv]
  · intro n hn
    simp [createHandler, JsValue.truthy, hn]
  · simp [createHandler, JsValue.truthy]
  · intro s hs ht
    simp [createHandler, JsValue.truthy, hs, ht]

/-- Counterexample to claim C7 as stated: the empty string is a string
that is empty after trimming, but the handler answers URL is required, not
URL cannot be empty, because the falsy check fires first. -/
theorem claimC7_counterexample :
    createHandler (.str "") ⟨[], 1⟩ (fun _ => "abcd1234") 0 "b" =
      (.badRequest "URL is required", ⟨[], 1⟩, 0) ∧
    CreateResult.badRequest "URL is required" ≠ CreateResult.badRequest "URL cannot be empty" :=
  ⟨by decide, by decide⟩

/-- Witness for the amended claim C7: a whitespace-only url is truthy and
trims to empty, producing URL cannot be empty. -/
theorem claimC7_witness :
    createHandler (.str "   ") ⟨[], 1⟩ (fun _ => "abcd1234") 0 "b" =
      (.badRequest "URL cannot be empty", ⟨[], 1⟩, 0) :=
  (claimC7_input_gate ⟨[], 1⟩ (fun _ => "abcd1234") 0 "b").2.2.2 "   "
    (by decide) (by decide)

/-- Claim C3: creating a fresh valid URL then redirecting on the returned
shortCode gives a 302 whose Location is that URL, and the click count of
the mapping goes from 0 to exactly 1. -/
theorem claimC3_round_trip (s : String) (st : Store) (gen : Nat → String)
    (now : Nat) (base : String)
    (hv : isValidUrl (jsTrim s) = true)
    (hl : isValidUrlLength (jsTrim s) = true)
    (hs : isSuspiciousUrl (jsTrim s) = false)
    (hsp : containsSpamPatterns (jsTrim s) = false)
    (hnew : findByOriginalUrl st (jsTrim s) = none)
    (hfresh : st.rows.any (fun m => m.short_code == gen 0) = false) :
    ∃ st2 st3 : Store,
      createHandler (.str s) st gen now base =
        (.ok (base ++ "/" ++ gen 0) (jsTrim s) (gen 0) 0, st2, 1) ∧
      findByShortCode st2 (gen 0) = some ⟨st.nextId, gen 0, jsTrim s, now, 0⟩ ∧
      redirectHandler (gen 0) st2 = (.redirect (jsTrim s), st3) ∧
      findByShortCode st3 (gen 0) = some ⟨st.nextId, gen 0, jsTrim s, now, 1⟩ := by
  have hfind := findByShortCode_after_insert st (gen 0) (jsTrim s) now hfresh
  refine ⟨⟨st.rows ++ [⟨st.nextId, gen 0, jsTrim s, now, 0⟩], st.nextId + 1⟩,
    incrementClicks ⟨st.rows ++ [⟨st.nextId, gen 0, jsTrim s, now, 0⟩], st.nextId + 1⟩ (gen 0),
    ?_, hfind, ?_, ?_⟩
  · rw [createHandler_validated s st gen now base hv hl hs hsp, hnew,
      insertUrl_fresh st (gen 0) (jsTrim s) now hfresh]
  · unfold redirectHandler
    rw [hfind]
  · rw [findByShortCode_incrementClicks, hfind]
    simp

/-- Witness for claim C3, with the URL of the spec example. -/
theorem claimC3_witness :
    ∃ st2 st3 : Store,
      createHandler (.str "https://example.com/path") ⟨[], 1⟩ (fun _ => "abcd1234") 4
          "https://sho.rt" =
        (.ok ("https://sho.rt" ++ "/" ++ "abcd1234") "https://example.com/path" "abcd1234" 0,
          st2, 1) ∧
      findByShortCode st2 "abcd1234" = some ⟨1, "abcd1234", "https://example.com/path", 4, 0⟩ ∧
      redirectHandler "abcd1234" st2 = (.redirect "https://example.com/path", st3) ∧
      findByShortCode st3 "abcd1234" = some ⟨1, "abcd1234", "https://example.com/path", 4, 1⟩ :=
  claimC3_round_trip "https://example.com/path" ⟨[], 1⟩ (fun _ => "abcd1234") 4 "https://sho.rt"
    (by decide) (by decide) (by decide) (by decide) (by decide) (by decide)

/-- Claim C10: the handler operates on the whitespace-trimmed input; the
originalUrl of the response, the original_url of the newly stored mapping
and the Location of a later redirect on the returned code all equal the
trimmed input. -/
theorem claimC10_trimmed_input (s : String) (st : Store) (gen : Nat → String)
    (now : Nat) (base : String)
    (hv : isValidUrl (jsTrim s) = true)
    (hl : isValidUrlLength (jsTrim s) = true)
    (hs : isSuspiciousUrl (jsTrim s) = false)
    (hsp : containsSpamPatterns (jsTrim s) = false)
    (hnew : findByOriginalUrl st (jsTrim s) = none)
    (hfresh : st.rows.any (fun m => m.short_code == gen 0) = false) :
    ∃ st2 : Store,
      createHandler (.str s) st gen now base =
        (.ok (base ++ "/" ++ gen 0) (jsTrim s) (gen 0) 0, st2, 1) ∧
      st2.rows = st.rows ++ [⟨st.nextId, gen 0, jsTrim s, now, 0⟩] ∧
      (redirectHandler (gen 0) st2).1 = .redirect (jsTrim s) := by
  have hfind := findByShortCode_after_insert st (gen 0) (jsTrim s) now hfresh
  refine ⟨⟨st.rows ++ [⟨st.nextId, gen 0, jsTrim s, now, 0⟩], st.nextId + 1⟩, ?_, rfl, ?_⟩
  · rw [createHandler_validated s st gen now base hv hl hs hsp, hnew,
      insertUrl_fresh st (gen 0) (jsTrim s) now hfresh]
  · unfold redirectHandler
    rw [hfind]

/-- Witness for claim C10: the input carries leading and trailing blanks
and everything observable uses the trimmed form. -/
theorem claimC10_witness :
    ∃ st2 : Store,
      createHandler (.str "  https://example.com/trimmed  ") ⟨[], 1⟩ (fun _ => "abcd1234") 4
          "https://sho.rt" =
        (.ok ("https://sho.rt" ++ "/" ++ "abcd1234") "https://example.com/trimmed" "abcd1234" 0,
          st2, 1) ∧
      st2.rows = [] ++ [⟨1, "abcd1234", "https://example.com/trimmed", 4, 0⟩] ∧
      (redirectHandler "abcd1234" st2).1 = .redirect "https://example.com/trimmed" :=
  claimC10_trimmed_input "  https://example.com/trimmed  " ⟨[], 1⟩ (fun _ => "abcd1234") 4
    "https://sho.rt" (by decide) (by decide) (by decide) (by decide) (by decide) (by decide)

/-- Claim C5: for a trimmed input that parses as an absolute http or https
URL, the handler rejects with the length message exactly when the trimmed
length falls outside the inclusive range 10 to 2048; in particular the
length check fires before the suspicious and shortener checks. -/
theorem claimC5_length_gate (s : String) (st : Store) (gen : Nat → String)
    (now : Nat) (base : String)
    (hv : isValidUrl (jsTrim s) = true) :
    createHandler (.str s) st gen now base =
        (.badRequest "URL length must be between 10 and 2048 characters.", st, 0)
      ↔ ¬(10 ≤ (jsTrim s).length ∧ (jsTrim s).length ≤ 2048) := by
  have hne : jsTrim s ≠ "" := isValidUrl_ne_empty _ hv
  have hsne : s ≠ "" := fun h => hne (by rw [h]; rfl)
  constructor
  · intro h hlen
    have hl : isValidUrlLength (jsTrim s) = true := by
      unfold isValidUrlLength
      exact decide_eq_true hlen
    by_cases hsus : isSuspiciousUrl (jsTrim s) = true
    · simp [createHandler, JsValue.truthy, hne, hsne, hv, hl, hsus] at h
    · rw [Bool.not_eq_true] at hsus
      by_cases hspam : containsSpamPatterns (jsTrim s) = true
      · simp [createHandler, JsValue.truthy, hne, hsne, hv, hl, hsus, hspam] at h
      · rw [Bool.not_eq_true] at hspam
        exact createHandler_no_badRequest s st gen now base hv hl hsus hspam _ _ _ h
  · intro hlen
    have hl : isValidUrlLength (jsTrim s) = false := by
      unfold isValidUrlLength
      exact decide_eq_false hlen
    simp [createHandler, JsValue.truthy, hne, hsne, hv, hl]

/-- Witness for claim C5: an http URL of trimmed length 9 is rejected with
the length message. -/
theorem claimC5_witness :
    createHandler (.str "http://ab") ⟨[], 1⟩ (fun _ => "abcd1234") 0 "b" =
      (.badRequest "URL length must be between 10 and 2048 characters.", ⟨[], 1⟩, 0) :=
  (claimC5_length_gate "http://ab" ⟨[], 1⟩ (fun _ => "abcd1234") 0 "b" (by decide)).mpr
    (by decide)

/-- Claim C6 (amended): past the format and length checks, the handler
rejects with the suspicious message exactly when one of the nine literal
patterns occurs as a case-insensitive substring anywhere in the whole
trimmed URL string; the host and scheme play no special role. -/
theorem claimC6_suspicious_substring (s : String) (st : Store) (gen : Nat → String)
    (now : Nat) (base : String)
    (hv : isValidUrl (jsTrim s) = true)
    (hl : isValidUrlLength (jsTrim s) = true) :
    createHandler (.str s) st gen now base =
        (.badRequest "Suspicious URL detected. Local and file URLs are not allowed.", st, 0)
      ↔ ∃ p ∈ suspiciousNeedles, ∃ pre post,
          lowerChars (jsTrim s).data = pre ++ p.data ++ post := by
  have hne : jsTrim s ≠ "" := isValidUrl_ne_empty _ hv
  have hsne : s ≠ "" := fun h => hne (by rw [h]; rfl)
  constructor
  · intro h
    by_cases hsus : isSuspiciousUrl (jsTrim s) = true
    · unfold isSuspiciousUrl at hsus
      rw [List.any_eq_true] at hsus
      obtain ⟨p, hp, hsub⟩ := hsus
      exact ⟨p, hp, (hasSub_iff p.data (lowerChars (jsTrim s).data)).mp hsub⟩
    · exfalso
      rw [Bool.not_eq_true] at hsus
      by_cases hspam : containsSpamPatterns (jsTrim s) = true
      · simp [createHandler, JsValue.truthy, hne, hsne, hv, hl, hsus, hspam] at h
      · rw [Bool.not_eq_true] at hspam
        exact createHandler_no_badRequest s st gen now base hv hl hsus hspam _ _ _ h
  · rintro ⟨p, hp, hsub⟩
    have hsus : isSuspiciousUrl (jsTrim s) = true := by
      unfold isSuspiciousUrl
      rw [List.any_eq_true]
      exact ⟨p, hp, (hasSub_iff p.data (lowerChars (jsTrim s).data)).mpr hsub⟩
    simp [createHandler, JsValue.truthy, hne, hsne, hv, hl, hsus]

/-- Counterexample to claim C6 as stated: this URL has scheme https and
the ordinary host example.com, none of the loopback hosts, yet the handler
rejects it as suspicious only because its path contains the substring
localhost. -/
theorem claimC6_counterexample :
    parseUrl "https://example.com/localhost" = some ⟨"https", "example.com"⟩ ∧
    ("example.com" ∈ ["localhost", "127.0.0.1", "0.0.0.0", "::1"]) = False ∧
    createHandler (.str "https://example.com/localhost") ⟨[], 1⟩ (fun _ => "abcd1234") 0 "b" =
      (.badRequest "Suspicious URL detected. Local and file URLs are not allowed.",
        ⟨[], 1⟩, 0) := by
  refine ⟨by decide, ?_, by decide⟩
  simp

/-- Witness for the amended claim C6: a URL whose path carries the pattern
data: is rejected as suspicious although its host is ordinary. -/
theorem claimC6_witness :
    createHandler (.str "https://example.com/data:page") ⟨[], 1⟩ (fun _ => "abcd1234") 0 "b" =
      (.badRequest "Suspicious URL detected. Local and file URLs are not allowed.",
        ⟨[], 1⟩, 0) :=
  (claimC6_suspicious_substring "https://example.com/data:page" ⟨[], 1⟩ (fun _ => "abcd1234")
      0 "b" (by decide) (by decide)).mpr
    ⟨"data:", by decide, "https://example.com/".data, "page".data, by decide⟩

theorem createHandler_store_rows (url : JsValue) (st : Store) (gen : Nat → String)
    (now : Nat) (base : String) :
    ∃ tail, ((createHandler url st gen now base).2.1).rows = st.rows ++ tail := by
  rcases hE : createHandler url st gen now base with ⟨res, st2, k⟩
  unfold createHandler at hE
  dsimp only at hE
  repeat' split at hE
  all_goals cases hE
  all_goals try (refine ⟨[], ?_⟩; simp; done)
  rename_i heq
  unfold insertUrl at heq
  split at heq
  · cases heq
  · rw [Except.ok.injEq] at heq
    cases heq
    exact ⟨[⟨st.nextId, gen 0, _, now, 0⟩], rfl⟩

theorem redirectHandler_mapping (code : String) (st : Store) (m : Mapping)
    (hm : m ∈ st.rows) :
    ∃ m2 ∈ ((redirectHandler code st).2).rows,
      m2.id = m.id ∧ m2.short_code = m.short_code ∧ m2.original_url = m.original_url ∧
      m2.created_at = m.created_at ∧ m.click_count ≤ m2.click_count := by
  unfold redirectHandler
  split
  · exact ⟨m, hm, rfl, rfl, rfl, rfl, le_refl _⟩
  · refine ⟨if m.short_code == code then { m with click_count := m.click_count + 1 } else m,
      ?_, ?_⟩
    · unfold incrementClicks
      exact List.mem_map_of_mem _ hm
    · by_cases h : (m.short_code == code) = true <;> simp [h]

theorem applyOp_mapping (st : Store) (op : Op) (m : Mapping) (hm : m ∈ st.rows) :
    ∃ m2 ∈ (applyOp st op).rows,
      m2.id = m.id ∧ m2.short_code = m.short_code ∧ m2.original_url = m.original_url ∧
      m2.created_at = m.created_at ∧ m.click_count ≤ m2.click_count ∧
      (op.isRedirect = false → m2 = m) := by
  cases op with
  | create url gen now base =>
    obtain ⟨tail, htail⟩ := createHandler_store_rows url st gen now base
    refine ⟨m, ?_, rfl, rfl, rfl, rfl, le_refl _, fun _ => rfl⟩
    simp only [applyOp]
    rw [htail]
    exact List.mem_append_left _ hm
  | stats code => exact ⟨m, hm, rfl, rfl, rfl, rfl, le_refl _, fun _ => rfl⟩
  | redirect code =>
    obtain ⟨m2, hmem, h1, h2, h3, h4, h5⟩ := redirectHandler_mapping code st m hm
    exact ⟨m2, hmem, h1, h2, h3, h4, h5, fun h => absurd h (by simp [Op.isRedirect])⟩

/-- Claim C4: over any sequence of create, stats and redirect requests, a
mapping present in the store keeps a successor row whose id, short_code,
original_url and created_at are unchanged (so no mapping is ever deleted
or rewritten), its click count never decreases, and if the sequence holds
no redirect the row is bit-for-bit unchanged, so only redirects touch the
click count. -/
theorem claimC4_mappings_immutable (ops : List Op) (st : Store) (m : Mapping)
    (hm : m ∈ st.rows) :
    ∃ m2 ∈ (runOps st ops).rows,
      m2.id = m.id ∧ m2.short_code = m.short_code ∧ m2.original_url = m.original_url ∧
      m2.created_at = m.created_at ∧ m.click_count ≤ m2.click_count ∧
      ((∀ op ∈ ops, op.isRedirect = false) → m2 = m) := by
  induction ops generalizing st m with
  | nil => exact ⟨m, hm, rfl, rfl, rfl, rfl, le_refl _, fun _ => rfl⟩
  | cons op ops ih =>
    obtain ⟨m1, hmem1, a1, a2, a3, a4, a5, a6⟩ := applyOp_mapping st op m hm
    obtain ⟨m2, hmem2, b1, b2, b3, b4, b5, b6⟩ := ih (applyOp st op) m1 hmem1
    refine ⟨m2, hmem2, by rw [b1, a1], by rw [b2, a2], by rw [b3, a3], by rw [b4, a4],
      le_trans a5 b5, ?_⟩
    intro hall
    have h1 : m1 = m := a6 (hall op (by simp))
    have h2 : m2 = m1 := b6 (fun o ho => hall o (by simp [ho]))
    rw [h2, h1]

/-- Witness for claim C4: one stats, one redirect and one create applied
after an initial store of one mapping. -/
theorem claimC4_witness :
    ∃ m2 ∈ (runOps ⟨[⟨1, "abcd1234", "https://example.com/a", 0, 0⟩], 2⟩
        [.stats "abcd1234", .redirect "abcd1234",
          .create (.str "https://example.com/newpage") (fun _ => "efgh5678") 7 "b"]).rows,
      m2.id = 1 ∧ m2.short_code = "abcd1234" ∧ m2.original_url = "https://example.com/a" ∧
      m2.created_at = 0 ∧ 0 ≤ m2.click_count ∧
      ((∀ op ∈ [Op.stats "abcd1234", Op.redirect "abcd1234",
          Op.create (.str "https://example.com/newpage") (fun _ => "efgh5678") 7 "b"],
        op.isRedirect = false) → m2 = ⟨1, "abcd1234", "https://example.com/a", 0, 0⟩) :=
  claimC4_mappings_immutable
    [.stats "abcd1234", .redirect "abcd1234",
      .create (.str "https://example.com/newpage") (fun _ => "efgh5678") 7 "b"]
    ⟨[⟨1, "abcd1234", "https://example.com/a", 0, 0⟩], 2⟩
    ⟨1, "abcd1234", "https://example.com/a", 0, 0⟩ (by simp)

theorem hexLower_not_dash (x : Char) (h : isHexLowerChar x = true) : (!(x == '-')) = true := by
  by_cases hx : x = '-'
  · subst hx
    exact absurd h (by decide)
  · simp [hx]

theorem hex_isUrlSafe (c : Char) (h : isHexLowerChar c = true) : isUrlSafeChar c = true := by
  unfold isHexLowerChar at h
  rcases Bool.or_eq_true_iff.mp h with hd | hr
  · simp [isUrlSafeChar, hd]
  · rw [Bool.and_eq_true] at hr
    have hge : 'a' ≤ c := of_decide_eq_true hr.1
    have hle : c ≤ 'f' := of_decide_eq_true hr.2
    have hz : c ≤ 'z' := le_trans hle (by decide)
    simp [isUrlSafeChar, isAsciiAlpha, hge, hz]

theorem generateShortCode_of_uuid (u : String) (h : IsUuidString u) :
    (generateShortCode u).data.length = 8 ∧
      ∀ c ∈ (generateShortCode u).data, isHexLowerChar c = true := by
  obtain ⟨a, b, c, d, e, ha, hb, hc, hd, he, hhex, hdata⟩ := h
  have hax : ∀ x ∈ a, isHexLowerChar x = true := fun x hx => hhex x (by simp [hx])
  have hfa : a.filter (fun ch => !(ch == '-')) = a :=
    List.filter_eq_self.mpr (fun x hx => hexLower_not_dash x (hax x hx))
  unfold generateShortCode
  rw [hdata, List.filter_append, hfa]
  have htake : ∀ rest : List Char, ((a ++ rest).take 8).length = 8 ∧ (a ++ rest).take 8 = a := by
    intro rest
    have h8 : (a ++ rest).take 8 = a := by
      rw [← ha]
      exact List.take_left a rest
    exact ⟨by rw [h8, ha], h8⟩
  obtain ⟨hlen, heq⟩ := htake (List.filter (fun ch => !(ch == '-')) ('-' :: (b ++ '-' :: (c ++ '-' :: (d ++ '-' :: e)))))
  constructor
  · exact hlen
  · intro x hx
    rw [heq] at hx
    exact hax x hx

/-- Claim C8 (amended): for every uuid-shaped input the generator returns
exactly 8 characters, each a lower case hexadecimal digit — a strict
subset of the URL-safe alphabet, so the draw space is 16 to the 8 — and
its only input is the uuid value, never the store. -/
theorem claimC8_generator_hex (u : String) (h : IsUuidString u) :
    (generateShortCode u).length = 8 ∧
      ∀ c ∈ (generateShortCode u).data, isHexLowerChar c = true ∧ isUrlSafeChar c = true := by
  obtain ⟨hlen, hhex⟩ := generateShortCode_of_uuid u h
  exact ⟨hlen, fun c hc => ⟨hhex c hc, hex_isUrlSafe c (hhex c hc)⟩⟩

/-- Counterexample to claim C8 as stated: the letter g belongs to the
URL-safe alphabet the spec attributes to the generator, but no uuid-shaped
input can ever produce it, so the generator does not draw from an
approximately 62 to the 8 space. -/
theorem claimC8_counterexample : ¬ GeneratorCoversUrlSafeAlphabet := by
  intro h
  obtain ⟨u, hu, hmem⟩ := h 'g' (by decide)
  have h2 := (generateShortCode_of_uuid u hu).2 'g' hmem
  exact absurd h2 (by decide)

/-- Witness for the amended claim C8 at a concrete uuid value. -/
theorem claimC8_witness :
    (generateShortCode "9f3c2b1a-7e4d-4c2b-8a1f-0123456789ab").length = 8 ∧
      ∀ c ∈ (generateShortCode "9f3c2b1a-7e4d-4c2b-8a1f-0123456789ab").data,
        isHexLowerChar c = true ∧ isUrlSafeChar c = true :=
  claimC8_generator_hex "9f3c2b1a-7e4d-4c2b-8a1f-0123456789ab"
    ⟨"9f3c2b1a".data, "7e4d".data, "4c2b".data, "8a1f".data, "0123456789ab".data,
      by decide, by decide, by decide, by decide, by decide, by decide, by decide⟩

theorem sum_map_set (f : List DbAction → Nat) :
    ∀ (qs : List (List DbAction)) (i : Nat) (q x : List DbAction),
      qs[i]? = some q →
      ((qs.set i x).map f).sum + f q = (qs.map f).sum + f x
  | [], i, q, x, h => by simp at h
  | l :: ls, 0, q, x, h => by
    simp only [List.getElem?_cons_zero, Option.some.injEq] at h
    subst h
    simp only [List.set_cons_zero, List.map_cons, List.sum_cons]
    omega
  | l :: ls, i + 1, q, x, h => by
    simp only [List.getElem?_cons_succ] at h
    have ih := sum_map_set f ls i q x h
    simp only [List.set_cons_succ, List.map_cons, List.sum_cons]
    omega

theorem mergeN_countP (p : DbAction → Bool) {qs : List (List DbAction)}
    {out : List DbAction} (h : MergeN qs out) :
    out.countP p = (qs.map (fun q => q.countP p)).sum := by
  induction h with
  | done qs hq =>
    simp only [List.countP_nil]
    symm
    apply List.sum_eq_zero
    intro x hx
    simp only [List.mem_map] at hx
    obtain ⟨q, hqm, rfl⟩ := hx
    rw [hq q hqm]
    simp
  | step qs i a rest out hq hm ih =>
    have hsum := sum_map_set (fun q => q.countP p) qs i (a :: rest) rest hq
    simp only [List.countP_cons] at hsum ⊢
    rw [ih]
    omega

theorem sum_replicate_traces (code : String) (n : Nat) :
    ((List.replicate n (redirectTrace code)).map
      (fun q => q.countP (isIncrFor code))).sum = n := by
  induction n with
  | zero => simp
  | succ k ih =>
    rw [List.replicate_succ]
    simp only [List.map_cons, List.sum_cons, ih]
    have h1 : (redirectTrace code).countP (isIncrFor code) = 1 := by
      simp [redirectTrace, List.countP_cons, isIncrFor]
    omega

theorem findByShortCode_runActions (acts : List DbAction) :
    ∀ (st : Store) (code : String) (row : Mapping),
      findByShortCode st code = some row →
      findByShortCode (runActions st acts) code =
        some { row with click_count := row.click_count + countIncr code acts } := by
  induction acts with
  | nil =>
    intro st code row h
    simpa [runActions, countIncr] using h
  | cons a acts ih =>
    intro st code row h
    cases a with
    | lookup c =>
      have hrec := ih st code row h
      simp only [runActions, List.foldl_cons] at hrec ⊢
      simpa [applyAction, countIncr, List.countP_cons, isIncrFor] using hrec
    | incr c =>
      have hrowc : row.short_code = code := by
        unfold findByShortCode at h
        have h2 := List.find?_some h
        simpa using h2
      have hstep := findByShortCode_incrementClicks st c code
      rw [h, Option.map_some'] at hstep
      simp only [runActions, List.foldl_cons]
      by_cases hc : c = code
      · subst hc
        simp only [hrowc, beq_self_eq_true, if_true] at hstep
        have hrec := ih (incrementClicks st c) c _ hstep
        rw [show applyAction st (DbAction.incr c) = incrementClicks st c from rfl]
        simp only [runActions] at hrec
        rw [hrec]
        have hcnt : countIncr c (DbAction.incr c :: acts) = countIncr c acts + 1 := by
          simp [countIncr, List.countP_cons, isIncrFor]
        rw [hcnt]
        simp only [Option.some.injEq, Mapping.mk.injEq]
        exact ⟨trivial, hrowc.symm, trivial, trivial, by omega⟩
      · have hcond : (row.short_code == c) = false := by
          rw [hrowc]
          simp only [beq_eq_false_iff_ne, ne_eq]
          exact fun hh => hc hh.symm
        simp only [hcond, Bool.false_eq_true, if_false] at hstep
        have hrec := ih (incrementClicks st c) code row hstep
        rw [show applyAction st (DbAction.incr c) = incrementClicks st c from rfl]
        simp only [runActions] at hrec
        rw [hrec]
        have hcc : (c == code) = false := by
          simp only [beq_eq_false_iff_ne, ne_eq]
          exact hc
        simp [countIncr, List.countP_cons, isIncrFor, hcc]

/-- Claim C9: with sqlite executing every SQL statement atomically, any
interleaving of the statement traces of n concurrent redirects of one
existing code whose click count starts at 0 makes a subsequent stats call
report exactly n clicks: the increment is a single-statement atomic
read-modify-write at the storage layer, so no update is lost. -/
theorem claimC9_no_lost_updates (n : Nat) (acts : List DbAction) (st : Store)
    (code : String) (row : Mapping)
    (hmerge : MergeN (List.replicate n (redirectTrace code)) acts)
    (hrow : findByShortCode st code = some row)
    (h0 : row.click_count = 0) :
    statsHandler code (runActions st acts) =
      .ok row.original_url row.short_code n row.created_at := by
  have hcount : countIncr code acts = n := by
    unfold countIncr
    rw [mergeN_countP (isIncrFor code) hmerge, sum_replicate_traces]
  have hf := findByShortCode_runActions acts st code row hrow
  unfold statsHandler
  rw [hf]
  simp [hcount, h0]

/-- Witness for claim C9: the statement traces of two concurrent redirects
interleaved as lookup, lookup, increment, increment still count 2. -/
theorem claimC9_witness :
    statsHandler "q1w2e3r4" (runActions
        ⟨[⟨1, "q1w2e3r4", "https://example.com/w", 0, 0⟩], 2⟩
        [.lookup "q1w2e3r4", .lookup "q1w2e3r4", .incr "q1w2e3r4", .incr "q1w2e3r4"]) =
      .ok "https://example.com/w" "q1w2e3r4" 2 0 :=
  claimC9_no_lost_updates 2
    [.lookup "q1w2e3r4", .lookup "q1w2e3r4", .incr "q1w2e3r4", .incr "q1w2e3r4"]
    ⟨[⟨1, "q1w2e3r4", "https://example.com/w", 0, 0⟩], 2⟩ "q1w2e3r4"
    ⟨1, "q1w2e3r4", "https://example.com/w", 0, 0⟩
    (by
      refine MergeN.step _ 0 (.lookup "q1w2e3r4") [.incr "q1w2e3r4"] _ rfl ?_
      refine MergeN.step _ 1 (.lookup "q1w2e3r4") [.incr "q1w2e3r4"] _ rfl ?_
      refine MergeN.step _ 0 (.incr "q1w2e3r4") [] _ rfl ?_
      refine MergeN.step _ 1 (.incr "q1w2e3r4") [] _ rfl ?_
      exact MergeN.done _ (by decide))
    (by decide) (by decide)

end UrlShortener
